import Mathlib

/-!
Verification development for the rodoo profile-resolution core
(`src/rodoo/config.py` and `src/rodoo/utils/misc.py`).

The Python code is shallowly embedded: TOML/Python values become the
inductive `Value`, dictionaries become association lists with Python dict
semantics (insertion order preserved, assignment replaces in place),
the filesystem becomes an explicit `FS` record, raised exceptions become
`Except PyErr`, and interactive prompt replies are passed in explicitly.
Numbers (Python int/float) are modelled as `Rat`; no floating-point
rounding is relevant to any verified property.
-/

set_option autoImplicit false

namespace Rodoo

/-- String-keyed association list modelling a Python `dict` (insertion
order preserved, first occurrence of a key is authoritative). -/
abbrev Dict (α : Type) := List (String × α)

/-- Python `d[k]` lookup result (first entry with the key). -/
def dictFind? {α : Type} : Dict α → String → Option α
  | [], _ => none
  | (k, v) :: rest, key => if k = key then some v else dictFind? rest key

/-- Python `k in d`. -/
def dictContains {α : Type} (d : Dict α) (k : String) : Bool :=
  (dictFind? d k).isSome

/-- Python `d[k] = v`: replace the value in place if the key is present,
otherwise append the new entry at the end (insertion order). -/
def dictSet {α : Type} : Dict α → String → α → Dict α
  | [], k, v => [(k, v)]
  | (k', v') :: rest, k, v =>
      if k' = k then (k, v) :: rest else (k', v') :: dictSet rest k v

/-- Python `d.update(other)`: assign every key of `other` into `d`,
in the iteration order of `other`. -/
def dictUpdate {α : Type} (d other : Dict α) : Dict α :=
  other.foldl (fun acc kv => dictSet acc kv.1 kv.2) d

/-- Errors a run of the embedded code can raise.  `typerExit n` models
`typer.Exit(n)`; the others model the Python exception of the same name.
`configurationError` models `rodoo.utils.exceptions.ConfigurationError`. -/
inductive PyErr : Type where
  | typerExit : Nat → PyErr
  | nameError : String → PyErr
  | configurationError : String → PyErr
  | valueError : String → PyErr
  | typeError : PyErr
  | attributeError : PyErr
  | keyError : String → PyErr
deriving DecidableEq

/-- TOML / Python values as they appear in configuration documents.
`none` is Python `None`; `path` is a `pathlib.Path` object (its string). -/
inductive Value : Type where
  | none : Value
  | str : String → Value
  | num : Rat → Value
  | bool : Bool → Value
  | list : List Value → Value
  | dict : List (String × Value) → Value
  | path : String → Value

/-- Python truthiness of a `Value`. -/
def truthyV : Value → Bool
  | .none => false
  | .str s => !s.isEmpty
  | .num q => decide (q ≠ 0)
  | .bool b => b
  | .list l => !l.isEmpty
  | .dict d => !d.isEmpty
  | .path _ => true

/-- Truthiness of a lookup result (`d.get(k)` returns `None` when absent). -/
def truthyO : Option Value → Bool
  | Option.none => false
  | Option.some v => truthyV v

/-- Truthiness of an optional string (Python `if s:` on `Optional[str]`). -/
def truthyOptStr : Option String → Bool
  | Option.none => false
  | Option.some s => !s.isEmpty

/-- Python `isinstance(v, (int, float))`.  A Python `bool` is a subclass
of `int`, so it also counts as a number. -/
def isNumberPy : Value → Bool
  | .num _ => true
  | .bool _ => true
  | _ => false

/-- Python `sub in s` for strings (substring test); `sub` is never empty
where this is used. -/
def strContainsSub (s sub : String) : Bool :=
  decide ((s.splitOn sub).length > 1) || sub.isEmpty

/-- Python `k in v` where `k` is a string: key test on dicts, substring
test on strings, element test on lists (equality with a `str` element),
`TypeError` otherwise. -/
def pyContains (k : String) (v : Value) : Except PyErr Bool :=
  match v with
  | .dict d => pure (dictContains d k)
  | .str s => pure (strContainsSub s k)
  | .list l => pure (l.any (fun e => match e with | .str t => t == k | _ => false))
  | _ => .error .typeError

/-- Python `v.get(k)` (default `None`): only dicts have `.get`. -/
def pyGet (v : Value) (k : String) : Except PyErr Value :=
  match v with
  | .dict d => pure ((dictFind? d k).getD .none)
  | _ => .error .attributeError

/-- Python `v[k]` with a string key: `KeyError` on a missing dict key,
`TypeError` on non-dict containers. -/
def pyIndex (v : Value) (k : String) : Except PyErr Value :=
  match v with
  | .dict d =>
    match dictFind? d k with
    | Option.some x => pure x
    | Option.none => .error (.keyError k)
  | _ => .error .typeError

/-- Python `v[k] = x` with a string key: in-place assignment on dicts,
`TypeError` otherwise. -/
def pySetItem (v : Value) (k : String) (x : Value) : Except PyErr Value :=
  match v with
  | .dict d => pure (.dict (dictSet d k x))
  | _ => .error .typeError

/-- Python `.items()` / dict iteration: only dicts iterate as key-value
pairs; anything else raises `AttributeError` at the `.items()` call. -/
def asDictE (v : Value) : Except PyErr (Dict Value)  :=
  match v with
  | .dict d => pure d
  | _ => .error .attributeError

/-- Python `v.copy()`: dicts and lists have `.copy()`; scalar values do
not (`AttributeError`). -/
def pyCopy (v : Value) : Except PyErr Value :=
  match v with
  | .dict d => pure (.dict d)
  | .list l => pure (.list l)
  | _ => .error .attributeError

/-- Python iteration over a value: lists yield their elements, strings
their characters, dicts their keys; other values raise `TypeError`. -/
def iterVals (v : Value) : Except PyErr (List Value) :=
  match v with
  | .list l => pure l
  | .str s => pure (s.toList.map (fun c => .str c.toString))
  | .dict d => pure (d.map (fun kv => .str kv.1))
  | _ => .error .typeError

/-- Python `str(v)`.  Exact for the scalar values that can appear in a
`paths` entry (strings, `Path` objects, numbers, booleans, `None`);
container renderings are not needed by any verified property and are
abbreviated. -/
def pyStr : Value → String
  | .str s => s
  | .path s => s
  | .num q => toString q
  | .bool b => if b then "True" else "False"
  | .none => "None"
  | .list _ => "<list>"
  | .dict _ => "<dict>"

/-- Python `s.isdigit()` restricted to ASCII strings: non-empty and all
characters are decimal digits. -/
def strIsDigit (s : String) : Bool :=
  !s.isEmpty && s.toList.all Char.isDigit

/-- Python `int(s)` on a string that passed `isdigit`. -/
def strToNatD (s : String) : Nat :=
  s.toList.foldl (fun a c => a * 10 + (c.toNat - 48)) 0

/-- Python `[a.strip() for a in s.split(sep)]`. -/
def pySplitStrip (s sep : String) : List String :=
  (s.splitOn sep).map String.trim

/-- Model of Python `float(s)`: an optional sign followed by a decimal
literal `digits` or `digits.digits`.  Other inputs (exponents, `inf`,
surrounding whitespace) are not modelled and map to `ValueError`. -/
def decDigits? (l : List Char) : Option Nat :=
  if l ≠ [] && l.all Char.isDigit then
    Option.some (l.foldl (fun a c => a * 10 + (c.toNat - 48)) 0)
  else Option.none

def pyFloat? (s : String) : Option Rat :=
  let (neg, t) := if s.startsWith "-" then (true, s.drop 1) else (false, s)
  let sign : Rat := if neg then -1 else 1
  match t.splitOn "." with
  | [a] => (decDigits? a.toList).map (fun n => sign * (n : Rat))
  | [a, b] =>
    match decDigits? a.toList, decDigits? b.toList with
    | Option.some n, Option.some m =>
        Option.some (sign * ((n : Rat) + (m : Rat) / ((10 : Rat) ^ b.length)))
    | _, _ => Option.none
  | _ => Option.none

/-! ## Filesystem model and `ConfigFile` (src/rodoo/config.py) -/

/-- A filesystem path, split as `directory / filename` so that
`Path(p).parent` is `p.dir`. -/
structure Path : Type where
  dir : String
  name : String
deriving DecidableEq

/-- What the filesystem holds at a path, as seen by `TOMLFile.read`:
`absent` (FileNotFoundError) and `unreadable` (PermissionError) are both
`OSError`s; `malformed` raises `TOMLKitError`; `parsed d` is a
well-formed TOML document whose top-level table is `d`.  Directories
named like config files are outside the model, so `exists()` and
`is_file()` coincide. -/
inductive FileContent : Type where
  | absent : FileContent
  | unreadable : FileContent
  | malformed : FileContent
  | parsed : Dict Value → FileContent

/-- Ambient state: current working directory, the user config directory
(`platformdirs.user_config_path`) and whether it exists, the home
directory (for `expanduser`), and the file contents. -/
structure FS : Type where
  cwd : String
  userConfigDir : String
  userConfigDirIsDir : Bool
  home : String
  file : Path → FileContent

/-- `p.exists()` / `p.is_file()` in the model. -/
def FS.hasFile (fs : FS) (p : Path) : Bool :=
  match fs.file p with
  | .absent => false
  | _ => true

/-- Overwrite one path's content. -/
def FS.setFile (fs : FS) (p : Path) (c : FileContent) : FS :=
  FS.mk fs.cwd fs.userConfigDir fs.userConfigDirIsDir fs.home
    (fun q => if q = p then c else fs.file q)

/-- `FILENAMES = [".rodoo.toml", "rodoo.toml"]` from config.py. -/
def FILENAMES : List String := [".rodoo.toml", "rodoo.toml"]

/-- `find_all_config_paths` (config.py lines 141-165): existing candidate
files, currend directory first, then the user config directory when it
is a directory. -/
def find_all_config_paths (fs : FS) : List Path :=
  ((FILENAMES.map (Path.mk fs.cwd)).filter (fun p => fs.hasFile p))
  ++ (if fs.userConfigDirIsDir then
        (FILENAMES.map (Path.mk fs.userConfigDir)).filter (fun p => fs.hasFile p)
      else [])

/-- In-memory `ConfigFile` object.  `configs = none` models the object
produced when `TOMLFile.read` raised `TOMLKitError`: that `except` branch
only reports the error, so neither `self.toml_doc` nor `self.configs` is
ever assigned and the attribute is missing. -/
structure ConfigFileRepr : Type where
  path : Path
  configs : Option (Dict Value)

/-- `ConfigFile.__init__` (config.py lines 41-51): `OSError` (missing or
unreadable file) yields an empty document; `TOMLKitError` (malformed
content) reports a user-facing error and leaves `configs` unset. -/
def configFileInit (fs : FS) (p : Path) : ConfigFileRepr :=
  ConfigFileRepr.mk p
    (match fs.file p with
     | .absent => Option.some []
     | .unreadable => Option.some []
     | .malformed => Option.none
     | .parsed d => Option.some d)

/-- Map a function over the values of a profile table, keeping keys. -/
def tableMapM (f : Value → Except PyErr Value) :
    Dict Value → Except PyErr (Dict Value)
  | [] => pure []
  | (k, v) :: rest => do
      let v' ← f v
      let rest' ← tableMapM f rest
      pure ((k, v') :: rest')

/-- Stringify truthy `paths` entries of one profile for serialization
(the loop body of `ConfigFile.write`, config.py lines 68-70):
`if "paths" in profile and profile.get("paths"):
   profile["paths"] = [str(p) for p in profile["paths"]]`. -/
def stringifyPaths (v : Value) : Except PyErr Value := do
  let c ← pyContains "paths" v
  if c then do
    let g ← pyGet v "paths"
    if truthyV g then do
      let entries ← iterVals g
      pySetItem v "paths" (.list (entries.map (fun e => .str (pyStr e))))
    else pure v
  else pure v

/-- `ConfigFile.write` (config.py lines 60-73): build a fresh document
holding only the `profile` table, with each profile copied and its
truthy `paths` entries stringified, and write it at `self.path`.
The written file is stored as its parsed document (TOML text is not
modelled); `tomlkit` round-trips values faithfully. -/
def configFileWrite (fs : FS) (cf : ConfigFileRepr) : Except PyErr FS := do
  match cf.configs with
  | Option.none => .error .attributeError
  | Option.some doc => do
    let profilesV := (dictFind? doc "profile").getD (.dict [])
    let t ← asDictE profilesV
    let copied ← tableMapM pyCopy t
    let st ← tableMapM stringifyPaths copied
    pure (fs.setFile cf.path (.parsed [("profile", Value.dict st)]))

/-- `ConfigFile.update` (config.py lines 53-58) on a freshly loaded
`ConfigFile(path)`: insert the profile table if missing, assign
`configs["profile"][name] = newConfig`, and write. -/
def configFileUpdate (fs : FS) (p : Path) (name : String) (newConfig : Value) :
    Except PyErr FS := do
  match (configFileInit fs p).configs with
  | Option.none => .error .attributeError
  | Option.some doc => do
    let doc := if dictContains doc "profile" then doc
               else dictSet doc "profile" (.dict [])
    let pv ← pyIndex (.dict doc) "profile"
    let t ← asDictE pv
    let doc' := dictSet doc "profile" (.dict (dictSet t name newConfig))
    configFileWrite fs (ConfigFileRepr.mk p (Option.some doc'))

/-- The unbound name `ConfigurationError` in config.py: the module never
imports it (lines 1-9), so evaluating any
`raise ConfigurationError(...)` statement in `_sanity_check` first
resolves the name and raises `NameError`; the message argument is never
even built. -/
def raiseConfigurationError (msg : String) : Except PyErr Unit :=
  let _ := msg
  .error (.nameError "ConfigurationError")

/-- The per-profile loop of `_sanity_check` (config.py lines 215-230):
each profile must be a dictionary; the `modules` key is not validated
(the body under `if "modules" in profile_config:` is `pass`); a present
`version` must satisfy `isinstance(version, (int, float))`. -/
def sanityProfiles : List (String × Value) → Except PyErr Unit
  | [] => pure ()
  | (name, pc) :: rest =>
    match pc with
    | .dict d => do
      (match dictFind? d "version" with
       | Option.some v =>
         if !isNumberPy v then
           raiseConfigurationError ("Version in profile " ++ name ++ " must be a number")
         else pure ()
       | Option.none => pure ())
      sanityProfiles rest
    | _ => raiseConfigurationError ("Profile " ++ name ++ " must be a dictionary")

/-- `_sanity_check` (config.py lines 207-233). -/
def _sanity_check (config : Value) : Except PyErr Unit :=
  match config with
  | .dict entries =>
    (match dictFind? entries "profile" with
     | Option.some (Value.dict profs) => sanityProfiles profs
     | Option.some _ => raiseConfigurationError "Profiles must be a dictionary"
     | Option.none => pure ())
  | _ => raiseConfigurationError "Configuration must be a dictionary"

/-- `Path(p).expanduser()` on a path string. -/
def expanduser (fs : FS) (p : String) : String :=
  if p.startsWith "~" then fs.home ++ p.drop 1 else p

/-- Resolution of one path string relative to the config file directory
(config.py lines 192-196): expanduser, then join non-absolute paths onto
the parent directory of the config file.  Normalization performed by
`.resolve()` (symlinks, `..`) is not modelled. -/
def resolvePathStr (fs : FS) (parentDir p : String) : String :=
  let q := expanduser fs p
  if q.startsWith "/" then q else parentDir ++ "/" ++ q

/-- `Path(p)` applied to one entry of a `paths` list: strings and `Path`
objects are accepted, anything else raises `TypeError`. -/
def resolveEntry (fs : FS) (parentDir : String) (e : Value) : Except PyErr Value :=
  match e with
  | .str s => pure (.path (resolvePathStr fs parentDir s))
  | .path s => pure (.path (resolvePathStr fs parentDir s))
  | _ => .error .typeError

/-- The `paths`-resolution applied to one profile value in the merge
loop (config.py lines 189-197). -/
def resolveProfileValue (fs : FS) (parentDir : String) (pv : Value) :
    Except PyErr Value := do
  let c ← pyContains "paths" pv
  if c then do
    let g ← pyGet pv "paths"
    if truthyV g then do
      let entries ← iterVals g
      let resolved ← entries.mapM (resolveEntry fs parentDir)
      pySetItem pv "paths" (.list resolved)
    else pure pv
  else pure pv

/-- Resolve every profile of one file's table. -/
def resolveTable (fs : FS) (p : Path) (t : Dict Value) : Except PyErr (Dict Value) :=
  tableMapM (resolveProfileValue fs p.dir) t

/-- One iteration of the merge loop of `load_and_merge_profiles`
(config.py lines 180-201): skip objects without a `configs` attribute,
read the profile table, resolve paths, then fold the whole table into
the merged set and point every one of its names at this file. -/
def mergeStep (fs : FS) (p : Path) (acc : Dict Value × Dict Path) :
    Except PyErr (Dict Value × Dict Path) :=
  match (configFileInit fs p).configs with
  | Option.none => pure acc
  | Option.some doc =>
    let profilesV := (dictFind? doc "profile").getD (.dict [])
    if truthyV profilesV then do
      let t ← asDictE profilesV
      let rt ← resolveTable fs p t
      pure (dictUpdate acc.1 rt, rt.foldl (fun s kv => dictSet s kv.1 p) acc.2)
    else pure acc

/-- The merge loop over a list of files. -/
def mergeFiles (fs : FS) : List Path → (Dict Value × Dict Path) →
    Except PyErr (Dict Value × Dict Path)
  | [], acc => pure acc
  | p :: rest, acc => do
      let acc' ← mergeStep fs p acc
      mergeFiles fs rest acc'

/-- `load_and_merge_profiles` (config.py lines 168-204): fold all found
config files lowest precedence first, then run `_sanity_check` over the
merged set. -/
def load_and_merge_profiles (fs : FS) :
    Except PyErr (Dict Value × Dict Path) := do
  let acc ← mergeFiles fs (find_all_config_paths fs).reverse ([], [])
  _sanity_check (.dict [("profile", .dict acc.1)])
  pure acc

/-! ## The interactive negotiator (src/rodoo/utils/misc.py) -/

/-- Interpretation of a reply to a numbered-list prompt, shared verbatim
by `_handle_no_cli_params` (misc.py lines 122-125) and
`_handle_cli_params_present` (misc.py lines 174-177):
`if choice.isdigit() and 1 <= int(choice) <= len(profiles_list):
   profiles_list[int(choice) - 1]
 else: choice`. -/
def interpretChoice (choice : String) (profilesList : List String) : String :=
  if strIsDigit choice && decide (1 ≤ strToNatD choice)
       && decide (strToNatD choice ≤ profilesList.length) then
    (profilesList.get? (strToNatD choice - 1)).getD choice
  else choice

/-- `_parse_cli_params` (misc.py lines 81-89): drop `None` values and the
`profile` key, and split/trim a `module` string into `modules`. -/
def parseCliGo : List (String × Value) → Dict Value → Except PyErr (Dict Value)
  | [], acc => pure acc
  | (k, v) :: rest, acc =>
    match v with
    | .none => parseCliGo rest acc
    | _ =>
      if k = "module" then
        match v with
        | .str s =>
            parseCliGo rest (dictSet acc "modules" (.list ((pySplitStrip s ",").map Value.str)))
        | _ => .error .attributeError
      else if k = "profile" then parseCliGo rest acc
      else parseCliGo rest (dictSet acc k v)

def _parse_cli_params (args : Dict Value) : Except PyErr (Dict Value) :=
  parseCliGo args []

/-- `_validate_required_cli_params` (misc.py lines 92-97): both `modules`
and `version` keys must be present in the CLI overlay. -/
def _validate_required_cli_params (cliParams : Dict Value) : Except PyErr Unit :=
  if !dictContains cliParams "modules" || !dictContains cliParams "version" then
    .error (.typerExit 1)
  else pure ()

/-- Replies the user gives to the `create_profile` wizard
(config.py lines 236-295), in prompt order; each field is the value the
corresponding `typer.prompt` / `typer.confirm` call returns. -/
structure CreateAnswers : Type where
  profileName : String
  modulesStr : String
  versionStr : String
  pythonVersion : String
  dbName : String
  pathsStr : String
  enterprise : Bool
  forceInstall : Bool
  forceUpdate : Bool
  extraParams : String
  pythonPackagesStr : String
  saveInCwd : Bool

/-- `create_profile` (config.py lines 236-295): build the new profile from
the answers (`float(version_str)` may raise `ValueError`), choose
`rodoo.toml` in the current or user config directory, and persist it via
`ConfigFile.update`. -/
def create_profile (fs : FS) (a : CreateAnswers) :
    Except PyErr (String × Dict Value × Path × FS) := do
  let version ← (match pyFloat? a.versionStr with
                 | Option.some q => pure q
                 | Option.none => .error (.valueError a.versionStr))
  let newProfile : Dict Value :=
    [("modules", .list ((pySplitStrip a.modulesStr ",").map Value.str)),
     ("version", .num version)]
  let newProfile := if a.pythonVersion ≠ "" then
      dictSet newProfile "python_version" (.str a.pythonVersion) else newProfile
  let newProfile := if a.dbName ≠ "" then
      dictSet newProfile "db" (.str a.dbName) else newProfile
  let newProfile := if a.pathsStr ≠ "" then
      dictSet newProfile "paths" (.list ((pySplitStrip a.pathsStr ",").map Value.path))
    else newProfile
  let newProfile := dictSet newProfile "enterprise" (.bool a.enterprise)
  let newProfile := dictSet newProfile "force_install" (.bool a.forceInstall)
  let newProfile := dictSet newProfile "force_update" (.bool a.forceUpdate)
  let newProfile := if a.extraParams ≠ "" then
      dictSet newProfile "extra_params" (.str a.extraParams) else newProfile
  let newProfile := if a.pythonPackagesStr ≠ "" then
      dictSet newProfile "python_packages"
        (.list ((pySplitStrip a.pythonPackagesStr ",").map Value.str))
    else newProfile
  let configPath := if a.saveInCwd then Path.mk fs.cwd "rodoo.toml"
                    else Path.mk fs.userConfigDir "rodoo.toml"
  let fs' ← configFileUpdate fs configPath a.profileName (.dict newProfile)
  pure (a.profileName, newProfile, configPath, fs')

/-- Replies consumed by `_handle_no_cli_params`. -/
structure NoParamsAnswers : Type where
  createConfirm : Bool
  create : CreateAnswers
  choice : String
  runConfirm : Bool

/-- Replies consumed by `_handle_cli_params_present`. -/
structure ParamsAnswers : Type where
  choice : String
  updateConfirm : Bool

/-- `_handle_no_cli_params` (misc.py lines 100-144). -/
def _handle_no_cli_params (fs : FS) (profile : Option String)
    (ans : NoParamsAnswers) : Except PyErr (Value × FS) := do
  let (allProfiles, sources) ← load_and_merge_profiles fs
  if allProfiles.isEmpty then
    if ans.createConfirm then do
      let r ← create_profile fs ans.create
      pure (.dict r.2.1, r.2.2.2)
    else .error (.typerExit 1)
  else
    let profileNameToUse : Option String :=
      if truthyOptStr profile then profile
      else if decide (allProfiles.length > 1) then
        Option.some (interpretChoice ans.choice (allProfiles.map Prod.fst))
      else if allProfiles.length == 1 then (allProfiles.map Prod.fst).head?
      else profile
    match profileNameToUse with
    | Option.none => .error (.typerExit 1)
    | Option.some name =>
      if name = "" then .error (.typerExit 1)
      else if !dictContains allProfiles name then .error (.typerExit 1)
      else do
        let _configPath ← (match dictFind? sources name with
                           | Option.some p => pure p
                           | Option.none => .error (.keyError name))
        if ans.runConfirm then do
          let v ← pyIndex (.dict allProfiles) name
          pure (v, fs)
        else .error (.typerExit 1)

/-- The dict comprehension of `_handle_cli_params_present` (misc.py lines
151-155): profiles whose source file sits in the current directory. -/
def buildProfilesInCwdGo (allProfiles : Dict Value) (cwd : String) :
    List (String × Path) → Dict Value → Except PyErr (Dict Value)
  | [], acc => pure acc
  | (n, p) :: rest, acc =>
    if p.dir = cwd then do
      let v ← pyIndex (.dict allProfiles) n
      buildProfilesInCwdGo allProfiles cwd rest (dictSet acc n v)
    else buildProfilesInCwdGo allProfiles cwd rest acc

def buildProfilesInCwd (allProfiles : Dict Value) (sources : Dict Path)
    (cwd : String) : Except PyErr (Dict Value) :=
  buildProfilesInCwdGo allProfiles cwd sources []

/-- Selection of the update target (misc.py lines 158-177): explicit
profile name first, else the sole local candidate, else the interpreted
reply to the numbered-list prompt. -/
def determineUpdateTarget (profile : Option String) (choice : String)
    (profilesInCwd : Dict Value) : Option String :=
  if truthyOptStr profile then profile
  else if profilesInCwd.length == 1 then (profilesInCwd.map Prod.fst).head?
  else if decide (profilesInCwd.length > 1) then
    Option.some (interpretChoice choice (profilesInCwd.map Prod.fst))
  else Option.none

/-- `_handle_cli_params_present` (misc.py lines 147-205). -/
def _handle_cli_params_present (fs : FS) (profile : Option String)
    (cliParams : Dict Value) (ans : ParamsAnswers) : Except PyErr (Value × FS) := do
  let (allProfiles, sources) ← load_and_merge_profiles fs
  let profilesInCwd ← buildProfilesInCwd allProfiles sources fs.cwd
  if !profilesInCwd.isEmpty then
    let profileToUpdate := determineUpdateTarget profile ans.choice profilesInCwd
    match profileToUpdate with
    | Option.some t =>
      if t ≠ "" ∧ dictContains profilesInCwd t = true then
        if ans.updateConfirm then do
          let configPath ← (match dictFind? sources t with
                            | Option.some p => pure p
                            | Option.none => .error (.keyError t))
          let profilesV ← (match (configFileInit fs configPath).configs with
                           | Option.none => .error .attributeError
                           | Option.some doc =>
                               pure ((dictFind? doc "profile").getD (.dict [])))
          let stored ← pyIndex profilesV t
          let storedD ← (match stored with
                         | .dict d => pure d
                         | _ => .error .attributeError)
          let updated := dictUpdate storedD cliParams
          let fs' ← configFileUpdate fs configPath t (.dict updated)
          pure (.dict updated, fs')
        else do
          _validate_required_cli_params cliParams
          pure (.dict cliParams, fs)
      else do
        _validate_required_cli_params cliParams
        pure (.dict cliParams, fs)
    | Option.none => do
      _validate_required_cli_params cliParams
      pure (.dict cliParams, fs)
  else do
    _validate_required_cli_params cliParams
    pure (.dict cliParams, fs)

/-- All interactive replies one `process_cli_args` run may consume. -/
structure Answers : Type where
  noParams : NoParamsAnswers
  params : ParamsAnswers

/-- `process_cli_args` (misc.py lines 208-221): parse CLI overrides,
dispatch on whether any were supplied, then enforce the final gate
`if not config.get("modules") or not config.get("version")`. -/
def process_cli_args (fs : FS) (profile : Option String) (args : Dict Value)
    (ans : Answers) : Except PyErr (Value × FS) := do
  let cliParams ← _parse_cli_params args
  let r ← (if cliParams.isEmpty then _handle_no_cli_params fs profile ans.noParams
           else _handle_cli_params_present fs profile cliParams ans.params)
  let m ← pyGet r.1 "modules"
  let v ← pyGet r.1 "version"
  if !truthyV m || !truthyV v then .error (.typerExit 1)
  else pure r

/-- Profile names a config file contributes to the merge: the keys of its
parsed `profile` table, when that table is a dictionary. -/
def providedNames (fs : FS) (p : Path) : List String :=
  match (configFileInit fs p).configs with
  | Option.none => []
  | Option.some doc =>
    match (dictFind? doc "profile").getD (.dict []) with
    | .dict t => t.map Prod.fst
    | _ => []

/-! ## Concrete scenarios used by counterexamples and witnesses -/

/-- A stored profile whose `modules` value is a TOML string, not a list. -/
def strModulesProfile : Dict Value :=
  [("modules", Value.str "base"), ("version", Value.num 16)]

/-- A well-formed profile record. -/
def okProfile : Dict Value :=
  [("modules", Value.list [Value.str "base"]), ("version", Value.num 16)]

/-- Filesystem with a single config file in the current directory whose
one profile has `modules = "base"` (a string). -/
def fsStrModules : FS :=
  FS.mk "/work" "/uc" false "/home/u"
    (fun p => if p = Path.mk "/work" ".rodoo.toml"
              then FileContent.parsed [("profile", Value.dict [("p", Value.dict strModulesProfile)])]
              else FileContent.absent)

/-- Interactive replies: decline everything, accept the run confirmation. -/
def plainAnswers : Answers :=
  Answers.mk
    (NoParamsAnswers.mk false
      (CreateAnswers.mk "" "" "" "" "" "" false false false "" "" false) "" true)
    (ParamsAnswers.mk "" false)

/-- The `_sanity_check` input of the repository's own test
`test_sanity_check_invalid_version_type`:
`{"profile": {"test": {"version": "16.0"}}}`. -/
def nonNumericVersionConfig : Value :=
  Value.dict [("profile", Value.dict [("test", Value.dict [("version", Value.str "16.0")])])]

/-- Filesystem whose current-directory config file is malformed TOML. -/
def fsMalformed : FS :=
  FS.mk "/work" "/uc" false "/home/u"
    (fun p => if p = Path.mk "/work" ".rodoo.toml"
              then FileContent.malformed
              else FileContent.absent)

/-- Whether a path holds a well-formed (parsed) config file. -/
def isParsedFile (fs : FS) (p : Path) : Bool :=
  match fs.file p with
  | .parsed _ => true
  | _ => false

/-- Mixed filesystem: the current-directory hidden file is malformed
while the user-directory file is well-formed with one profile `good`. -/
def fsMixed : FS :=
  FS.mk "/work" "/uc" true "/home/u"
    (fun p =>
      if p = Path.mk "/work" ".rodoo.toml" then FileContent.malformed
      else if p = Path.mk "/uc" "rodoo.toml" then
        FileContent.parsed [("profile", Value.dict [("good", Value.dict okProfile)])]
      else FileContent.absent)

/-- Filesystem with one profile whose `modules` is an empty list. -/
def fsEmptyModules : FS :=
  FS.mk "/work" "/uc" false "/home/u"
    (fun p => if p = Path.mk "/work" ".rodoo.toml"
              then FileContent.parsed
                [("profile", Value.dict
                  [("m", Value.dict [("modules", Value.list []), ("version", Value.num 16)])])]
              else FileContent.absent)

/-- The higher-precedence record for the duplicated profile name. -/
def dupHiProfile : Value :=
  Value.dict [("modules", Value.list [Value.str "hi"]), ("version", Value.num 17)]

/-- The lower-precedence record for the duplicated profile name. -/
def dupLoProfile : Value :=
  Value.dict [("modules", Value.list [Value.str "lo"]), ("version", Value.num 15)]

/-- Two files defining the same profile name `dup`: the current-directory
hidden file (higher precedence) and the user-directory file (lower). -/
def fsDup : FS :=
  FS.mk "/work" "/uc" true "/home/u"
    (fun p =>
      if p = Path.mk "/work" ".rodoo.toml" then
        FileContent.parsed [("profile", Value.dict [("dup", dupHiProfile)])]
      else if p = Path.mk "/uc" "rodoo.toml" then
        FileContent.parsed [("profile", Value.dict [("dup", dupLoProfile)])]
      else FileContent.absent)

/-- Filesystem with one well-formed profile `p` in the current directory,
used for the ParamsPresent scenarios. -/
def fsLocalProfile : FS :=
  FS.mk "/work" "/uc" false "/home/u"
    (fun p => if p = Path.mk "/work" ".rodoo.toml"
              then FileContent.parsed [("profile", Value.dict [("p", Value.dict okProfile)])]
              else FileContent.absent)

/-- The profile `p` of `fsLocalProfile` after overlaying `db = "x"`. -/
def updatedLocalProfile : Dict Value :=
  dictUpdate okProfile [("db", Value.str "x")]

/-- `fsLocalProfile` after the accepted update writes the overlaid
profile back to the originating file. -/
def fsLocalProfileAfter : FS :=
  FS.setFile fsLocalProfile (Path.mk "/work" ".rodoo.toml")
    (FileContent.parsed [("profile", Value.dict [("p", Value.dict updatedLocalProfile)])])

/-- Filesystem for the round-trip witness: no file yet at the target. -/
def fsEmptyTarget : FS :=
  FS.mk "/work" "/uc" false "/home/u" (fun _ => FileContent.absent)

/-- A profile with a `paths` entry, to exercise path serialization. -/
def pathsProfile : Dict Value :=
  [("modules", Value.list [Value.str "base"]), ("version", Value.num 16),
   ("paths", Value.list [Value.path "/x/a", Value.path "/x/b"])]

/-- `pathsProfile` with its `paths` entries serialized to strings. -/
def pathsProfileSerialized : Dict Value :=
  [("modules", Value.list [Value.str "base"]), ("version", Value.num 16),
   ("paths", Value.list [Value.str "/x/a", Value.str "/x/b"])]

/-- An in-memory document holding one profile plus an unrelated
top-level key. -/
def docWithExtras : Dict Value :=
  [("title", Value.str "unrelated"), ("profile", Value.dict [("p", Value.dict okProfile)]),
   ("owner", Value.dict [("name", Value.str "x")])]

/-- In-memory `ConfigFile` holding `docWithExtras` at the target path. -/
def cfWithExtras : ConfigFileRepr :=
  ConfigFileRepr.mk (Path.mk "/work" "rodoo.toml") (Option.some docWithExtras)

/-- The filesystem after writing `cfWithExtras`: only the profile table
survives. -/
def fsAfterWriteExtras : FS :=
  FS.setFile fsEmptyTarget (Path.mk "/work" "rodoo.toml")
    (FileContent.parsed [("profile", Value.dict [("p", Value.dict okProfile)])])

/-- The filesystem after round-tripping `pathsProfile` through
`ConfigFile.update` at `/work/rodoo.toml`. -/
def fsRoundTrip : FS :=
  FS.setFile fsEmptyTarget (Path.mk "/work" "rodoo.toml")
    (FileContent.parsed [("profile", Value.dict [("p", Value.dict pathsProfileSerialized)])])

/-- Filesystem for the find-paths witness: hidden cwd file and plain user file
exist, the other two candidates do not. -/
def fsFindPaths : FS :=
  FS.mk "/work" "/uc" true "/home/u"
    (fun p =>
      if p = Path.mk "/work" ".rodoo.toml" then
        FileContent.parsed [("profile", Value.dict [("a", Value.dict okProfile)])]
      else if p = Path.mk "/uc" "rodoo.toml" then
        FileContent.parsed [("profile", Value.dict [("b", Value.dict okProfile)])]
      else FileContent.absent)

/-- Lookup of a top-level entry of a configuration value (empty for
non-dicts); used to state properties of resolved configurations. -/
def getEntry (v : Value) (k : String) : Option Value :=
  match v with
  | .dict d => dictFind? d k
  | _ => Option.none

/-- Whether a value is a list. -/
def isListV : Value → Bool
  | .list _ => true
  | _ => false

/-- Whether an error is the `ConfigurationError` exception type. -/
def isConfigurationError : PyErr → Bool
  | .configurationError _ => true
  | _ => false

/-- The shape `_sanity_check` actually enforces on one profile: it is a
dictionary and its `version` entry, when present, is numeric.  (`modules`
is deliberately absent: the source does not validate it.) -/
def profileShapeOk (pv : Value) : Bool :=
  match pv with
  | .dict d =>
    (match dictFind? d "version" with
     | Option.some v => isNumberPy v
     | Option.none => true)
  | _ => false

/-! ## General lemmas about the embedding -/

theorem except_bind_ok {α β : Type} {e : Except PyErr α} {f : α → Except PyErr β}
    {b : β} : (e >>= f = Except.ok b) ↔ ∃ a, e = Except.ok a ∧ f a = Except.ok b := by
  cases e <;> simp [Bind.bind, Except.bind]

theorem truthyO_getD (o : Option Value) : truthyV (o.getD .none) = truthyO o := by
  cases o <;> rfl

theorem dictFind?_set_self {α : Type} (d : Dict α) (k : String) (v : α) :
    dictFind? (dictSet d k v) k = Option.some v := by
  induction d with
  | nil => simp [dictSet, dictFind?]
  | cons kv rest ih =>
    by_cases h : kv.1 = k
    · simp [dictSet, dictFind?, h]
    · simpa [dictSet, dictFind?, h] using ih

theorem dictFind?_set_other {α : Type} (d : Dict α) (k k' : String) (v : α)
    (h : k ≠ k') : dictFind? (dictSet d k v) k' = dictFind? d k' := by
  induction d with
  | nil => simp [dictSet, dictFind?, h]
  | cons kv rest ih =>
    obtain ⟨k1, v1⟩ := kv
    by_cases hk : k1 = k
    · simp [dictSet, dictFind?, hk, h, Ne.symm h]
    · simp only [dictSet, hk, if_neg, not_false_iff, dictFind?]
      by_cases hk' : k1 = k'
      · simp [dictFind?, hk']
      · simp [dictFind?, hk', ih]

theorem dictFind?_mem {α : Type} {d : Dict α} {k : String} {v : α}
    (h : dictFind? d k = Option.some v) : (k, v) ∈ d := by
  induction d with
  | nil => simp [dictFind?] at h
  | cons kv rest ih =>
    obtain ⟨k1, v1⟩ := kv
    by_cases hk : k1 = k
    · simp only [dictFind?, hk, if_pos] at h
      cases h
      subst hk
      exact List.mem_cons_self _ _
    · simp only [dictFind?, hk, if_neg, not_false_iff] at h
      exact List.mem_cons_of_mem _ (ih h)

theorem dictFind?_mem_keys {α : Type} {d : Dict α} {k : String} {v : α}
    (h : dictFind? d k = Option.some v) : k ∈ d.map Prod.fst := by
  exact List.mem_map.2 ⟨(k, v), dictFind?_mem h, rfl⟩

theorem dictUpdate_cons {α : Type} (d : Dict α) (k : String) (v : α)
    (rest : Dict α) :
    dictUpdate d ((k, v) :: rest) = dictUpdate (dictSet d k v) rest := rfl

theorem dictFind?_update_not_mem {α : Type} (d : Dict α) {l : Dict α}
    {n : String} (h : n ∉ l.map Prod.fst) :
    dictFind? (dictUpdate d l) n = dictFind? d n := by
  induction l generalizing d with
  | nil => rfl
  | cons kv rest ih =>
    obtain ⟨k1, v1⟩ := kv
    simp only [List.map_cons, List.mem_cons] at h
    push_neg at h
    rw [dictUpdate_cons]
    rw [ih _ h.2, dictFind?_set_other _ _ _ _ (fun he => h.1 he.symm)]

theorem dictFind?_update_self {α : Type} (d : Dict α) {l : Dict α}
    {n : String} {v : α} (hnd : (l.map Prod.fst).Nodup)
    (h : dictFind? l n = Option.some v) :
    dictFind? (dictUpdate d l) n = Option.some v := by
  induction l generalizing d with
  | nil => simp [dictFind?] at h
  | cons kv rest ih =>
    obtain ⟨k1, v1⟩ := kv
    simp only [List.map_cons, List.nodup_cons] at hnd
    rw [dictUpdate_cons]
    by_cases hk : k1 = n
    · simp only [dictFind?, hk, if_pos] at h
      cases h
      rw [dictFind?_update_not_mem _ (hk ▸ hnd.1), hk, dictFind?_set_self]
    · simp only [dictFind?, hk, if_neg, not_false_iff] at h
      exact ih _ hnd.2 h

theorem srcFold_find?_not_mem (l : Dict Value) (p : Path) (s : Dict Path)
    {n : String} (h : n ∉ l.map Prod.fst) :
    dictFind? (l.foldl (fun s kv => dictSet s kv.1 p) s) n = dictFind? s n := by
  induction l generalizing s with
  | nil => rfl
  | cons kv rest ih =>
    obtain ⟨k1, v1⟩ := kv
    simp only [List.map_cons, List.mem_cons] at h
    push_neg at h
    rw [List.foldl_cons, ih _ h.2,
        dictFind?_set_other _ _ _ _ (fun he => h.1 he.symm)]

theorem srcFold_find?_mem (l : Dict Value) (p : Path) (s : Dict Path)
    {n : String} (hnd : (l.map Prod.fst).Nodup) (h : n ∈ l.map Prod.fst) :
    dictFind? (l.foldl (fun s kv => dictSet s kv.1 p) s) n = Option.some p := by
  induction l generalizing s with
  | nil => simp at h
  | cons kv rest ih =>
    obtain ⟨k1, v1⟩ := kv
    simp only [List.map_cons, List.nodup_cons] at hnd
    simp only [List.map_cons, List.mem_cons] at h
    rw [List.foldl_cons]
    rcases h with h | h
    · rw [srcFold_find?_not_mem _ _ _ (h ▸ hnd.1), h, dictFind?_set_self]
    · exact ih _ hnd.2 h

theorem tableMapM_keys {f : Value → Except PyErr Value} {t t' : Dict Value}
    (h : tableMapM f t = Except.ok t') : t'.map Prod.fst = t.map Prod.fst := by
  induction t generalizing t' with
  | nil =>
    simp only [tableMapM, pure] at h
    cases h
    rfl
  | cons kv rest ih =>
    simp only [tableMapM] at h
    rcases except_bind_ok.1 h with ⟨v', hv, h⟩
    rcases except_bind_ok.1 h with ⟨rest', hr, h⟩
    simp only [pure, Except.pure, Except.ok.injEq] at h
    subst h
    simp [ih hr]

theorem tableMapM_find? {f : Value → Except PyErr Value} {t t' : Dict Value}
    {n : String} {v v' : Value} (h : tableMapM f t = Except.ok t')
    (hfind : dictFind? t n = Option.some v) (hf : f v = Except.ok v') :
    dictFind? t' n = Option.some v' := by
  induction t generalizing t' with
  | nil => simp [dictFind?] at hfind
  | cons kv rest ih =>
    simp only [tableMapM] at h
    rcases except_bind_ok.1 h with ⟨w', hw, h⟩
    rcases except_bind_ok.1 h with ⟨rest', hr, h⟩
    simp only [pure, Except.pure, Except.ok.injEq] at h
    subst h
    by_cases hk : kv.1 = n
    · simp only [dictFind?, hk, if_pos] at hfind
      cases hfind
      rw [hf] at hw
      cases hw
      simp [dictFind?, hk]
    · simp only [dictFind?, hk, if_neg, not_false_iff] at hfind
      simpa [dictFind?, hk] using ih hr hfind

/-! ## Claim C2 -/

/-- C2: the claim says `_sanity_check` raises `ConfigurationError` on a
profile with a non-numeric version.  On the failing input used by the
repository's own test `test_sanity_check_invalid_version_type`, the code
instead raises `NameError`, because `rodoo/config.py` never imports
`ConfigurationError`; `NameError` is not the `ConfigurationError`
exception type.  The code contradicts its own test suite, so this is a
code bug, not a spec defect. -/
theorem sanity_check_raises_nameerror_not_configurationerror :
    _sanity_check nonNumericVersionConfig
      = Except.error (PyErr.nameError "ConfigurationError")
    ∧ isConfigurationError (PyErr.nameError "ConfigurationError") = false :=
  ⟨rfl, rfl⟩

/-! ## Claim C10 -/

/-- C10: in the numbered-list prompts of `_handle_no_cli_params` and
`_handle_cli_params_present` (both resolve the reply through
`interpretChoice`), a reply that is entirely decimal digits with value
between 1 and the number of listed profiles always selects the 1-based
list element — even when a profile named exactly that digit string is in
the list — while an out-of-range digit string or any non-digit reply is
taken as a literal profile name. -/
theorem numbered_prompt_choice_semantics (choice : String) (l : List String) :
    ((strIsDigit choice = true) → 1 ≤ strToNatD choice → strToNatD choice ≤ l.length →
       ∃ r, l.get? (strToNatD choice - 1) = Option.some r ∧ interpretChoice choice l = r)
    ∧ (choice ∈ l → (strIsDigit choice = true) → 1 ≤ strToNatD choice →
         strToNatD choice ≤ l.length →
       ∃ r, l.get? (strToNatD choice - 1) = Option.some r ∧ interpretChoice choice l = r)
    ∧ ((strIsDigit choice = false ∨ strToNatD choice = 0 ∨ l.length < strToNatD choice) →
       interpretChoice choice l = choice) := by
  have main : (strIsDigit choice = true) → 1 ≤ strToNatD choice →
      strToNatD choice ≤ l.length →
      ∃ r, l.get? (strToNatD choice - 1) = Option.some r ∧ interpretChoice choice l = r := by
    intro h1 h2 h3
    have hlt : strToNatD choice - 1 < l.length := by omega
    refine ⟨l.get ⟨strToNatD choice - 1, hlt⟩, List.get?_eq_get hlt, ?_⟩
    unfold interpretChoice
    rw [if_pos (by simp [h1, h2, h3])]
    rw [List.get?_eq_get hlt]
    rfl
  refine ⟨main, fun _ => main, ?_⟩
  intro h
  unfold interpretChoice
  rw [if_neg ?_]
  intro hc
  simp only [Bool.and_eq_true, decide_eq_true_eq] at hc
  rcases h with h | h | h
  · rw [h] at hc
    simp at hc
  · omega
  · omega

/-- C10 witness: with profiles `["first", "1"]` the reply `"1"` selects
the first listed profile even though a profile literally named `"1"`
exists, and the out-of-range reply `"3"` stays literal. -/
theorem numbered_prompt_choice_semantics_witness :
    (∃ r, ["first", "1"].get? (strToNatD "1" - 1) = Option.some r
        ∧ interpretChoice "1" ["first", "1"] = r)
    ∧ interpretChoice "3" ["first", "1"] = "3" :=
  ⟨(numbered_prompt_choice_semantics "1" ["first", "1"]).2.1 (by decide) (by decide)
      (by decide) (by decide),
   (numbered_prompt_choice_semantics "3" ["first", "1"]).2.2 (by decide)⟩

/-! ## Claim C3 -/

/-- C3 counterexample: on a malformed config file the claim says loading
yields an empty in-memory document; in fact the `TOMLKitError` branch of
`ConfigFile.__init__` never assigns `self.configs`, so the loaded object
has no document at all (`configs` is unset, modelled as `none`, not as
the empty document `some []`). -/
theorem malformed_file_yields_no_document :
    (configFileInit fsMalformed (Path.mk "/work" ".rodoo.toml")).configs = Option.none
    ∧ ∀ d : Dict Value,
        (configFileInit fsMalformed (Path.mk "/work" ".rodoo.toml")).configs
          ≠ Option.some d :=
  ⟨rfl, fun _ h => Option.noConfusion h⟩

theorem mergeFiles_all_bad {fs : FS} {l : List Path}
    (acc : Dict Value × Dict Path)
    (h : ∀ p ∈ l, fs.file p = FileContent.absent ∨ fs.file p = FileContent.unreadable
          ∨ fs.file p = FileContent.malformed) :
    mergeFiles fs l acc = Except.ok acc := by
  induction l with
  | nil => rfl
  | cons p rest ih =>
    have hstep : mergeStep fs p acc = Except.ok acc := by
      rcases h p (List.mem_cons_self _ _) with hp | hp | hp <;>
        simp [mergeStep, configFileInit, hp, dictFind?, truthyV, pure, Except.pure]
    simp only [mergeFiles]
    rw [hstep]
    simpa [Bind.bind, Except.bind] using ih (fun q hq => h q (List.mem_cons_of_mem _ hq))

theorem mergeStep_not_parsed {fs : FS} {p : Path} (acc : Dict Value × Dict Path)
    (h : isParsedFile fs p = false) : mergeStep fs p acc = Except.ok acc := by
  unfold isParsedFile at h
  cases hf : fs.file p <;> rw [hf] at h
  · simp [mergeStep, configFileInit, hf, dictFind?, truthyV, pure, Except.pure]
  · simp [mergeStep, configFileInit, hf, dictFind?, truthyV, pure, Except.pure]
  · simp [mergeStep, configFileInit, hf, pure, Except.pure]
  · simp at h

theorem mergeFiles_filter_parsed (fs : FS) (l : List Path)
    (acc : Dict Value × Dict Path) :
    mergeFiles fs l acc
      = mergeFiles fs (l.filter (fun p => isParsedFile fs p)) acc := by
  induction l generalizing acc with
  | nil => rfl
  | cons p rest ih =>
    by_cases hp : isParsedFile fs p = true
    · rw [show (p :: rest).filter (fun q => isParsedFile fs q)
            = p :: rest.filter (fun q => isParsedFile fs q) by
          simp [List.filter_cons, hp]]
      simp only [mergeFiles]
      cases hs : mergeStep fs p acc with
      | error e => simp [Bind.bind, Except.bind]
      | ok a => simp [Bind.bind, Except.bind, ih]
    · rw [show (p :: rest).filter (fun q => isParsedFile fs q)
            = rest.filter (fun q => isParsedFile fs q) by
          simp [List.filter_cons, hp]]
      simp only [mergeFiles]
      rw [mergeStep_not_parsed acc (Bool.not_eq_true _ ▸ hp)]
      simp only [Bind.bind, Except.bind]
      exact ih acc

/-- C3 amended: a missing or unreadable file loads as an empty in-memory
document without raising; a malformed file reports a user-facing error
and loads as an object with no document at all (no `configs`
attribute), which `load_and_merge_profiles` skips.  Every non-parsed
file is a no-op of the merge fold, so the merge over all found config
files equals the merge over just the well-formed ones — a malformed
file contributes zero profiles while the remaining files still merge,
and can never crash the merge; in particular a run over only bad files
succeeds with zero profiles. -/
theorem load_failure_modes_are_soft :
    (∀ fs p, fs.file p = FileContent.absent →
       (configFileInit fs p).configs = Option.some [])
    ∧ (∀ fs p, fs.file p = FileContent.unreadable →
       (configFileInit fs p).configs = Option.some [])
    ∧ (∀ fs p, fs.file p = FileContent.malformed →
       (configFileInit fs p).configs = Option.none)
    ∧ (∀ (fs : FS) (l : List Path) (acc : Dict Value × Dict Path),
       mergeFiles fs l acc
         = mergeFiles fs (l.filter (fun p => isParsedFile fs p)) acc)
    ∧ (∀ fs : FS, load_and_merge_profiles fs = (do
         let acc ← mergeFiles fs
           (((find_all_config_paths fs).reverse).filter (fun p => isParsedFile fs p))
           ([], [])
         _sanity_check (.dict [("profile", .dict acc.1)])
         pure acc))
    ∧ (∀ fs : FS, (∀ p ∈ find_all_config_paths fs,
         fs.file p = FileContent.absent ∨ fs.file p = FileContent.unreadable
           ∨ fs.file p = FileContent.malformed) →
       load_and_merge_profiles fs = Except.ok ([], [])) := by
  refine ⟨?_, ?_, ?_, mergeFiles_filter_parsed, ?_, ?_⟩
  · intro fs p h
    simp [configFileInit, h]
  · intro fs p h
    simp [configFileInit, h]
  · intro fs p h
    simp [configFileInit, h]
  · intro fs
    unfold load_and_merge_profiles
    rw [mergeFiles_filter_parsed]
  · intro fs h
    unfold load_and_merge_profiles
    rw [mergeFiles_all_bad _ (fun p hp => h p (List.mem_reverse.1 hp))]
    simp [Bind.bind, Except.bind, _sanity_check, dictFind?, sanityProfiles, pure, Except.pure]

/-- C3 witness: the soft-failure theorem applied concretely.  On
`fsMixed` — current-directory file malformed, user-directory file
well-formed — the merge over both found files equals the merge over the
well-formed file alone, and the whole resolution succeeds with exactly
the well-formed file's profile; an all-bad filesystem yields zero
profiles without crashing. -/
theorem load_failure_modes_are_soft_witness :
    (configFileInit fsMalformed (Path.mk "/x" "y")).configs = Option.some []
    ∧ mergeFiles fsMixed
        [Path.mk "/uc" "rodoo.toml", Path.mk "/work" ".rodoo.toml"] ([], [])
        = mergeFiles fsMixed [Path.mk "/uc" "rodoo.toml"] ([], [])
    ∧ load_and_merge_profiles fsMixed
        = Except.ok ([("good", Value.dict okProfile)],
                     [("good", Path.mk "/uc" "rodoo.toml")])
    ∧ load_and_merge_profiles fsMalformed = Except.ok ([], []) := by
  refine ⟨?_, ?_, ?_, ?_⟩
  · exact load_failure_modes_are_soft.1 fsMalformed (Path.mk "/x" "y") rfl
  · exact load_failure_modes_are_soft.2.2.2.1 fsMixed
      [Path.mk "/uc" "rodoo.toml", Path.mk "/work" ".rodoo.toml"] ([], [])
  · rw [load_failure_modes_are_soft.2.2.2.2.1 fsMixed]
    rfl
  · refine load_failure_modes_are_soft.2.2.2.2.2 fsMalformed ?_
    intro p hp
    have he : find_all_config_paths fsMalformed = [Path.mk "/work" ".rodoo.toml"] := rfl
    rw [he] at hp
    simp only [List.mem_singleton] at hp
    subst hp
    exact Or.inr (Or.inr rfl)

/-! ## Claim C4 -/

theorem sanityProfiles_ok_version {l : List (String × Value)}
    (h : sanityProfiles l = Except.ok ()) :
    ∀ n pv, (n, pv) ∈ l → ∃ d, pv = Value.dict d ∧
      ∀ v, dictFind? d "version" = Option.some v → isNumberPy v = true := by
  induction l with
  | nil =>
    intro n pv hm
    simp at hm
  | cons kv rest ih =>
    obtain ⟨k1, v1⟩ := kv
    intro n pv hm
    cases v1 with
    | dict d =>
      simp only [sanityProfiles] at h
      rcases except_bind_ok.1 h with ⟨u, hu, hrest⟩
      rcases List.mem_cons.1 hm with hm | hm
      · cases hm
        refine ⟨d, rfl, ?_⟩
        intro v hv
        rw [hv] at hu
        by_cases hnum : isNumberPy v = true
        · exact hnum
        · rw [Bool.not_eq_true] at hnum
          simp [hnum, raiseConfigurationError] at hu
      · exact ih hrest n pv hm
    | none => simp [sanityProfiles, raiseConfigurationError] at h
    | str s => simp [sanityProfiles, raiseConfigurationError] at h
    | num q => simp [sanityProfiles, raiseConfigurationError] at h
    | bool b => simp [sanityProfiles, raiseConfigurationError] at h
    | list xs => simp [sanityProfiles, raiseConfigurationError] at h
    | path s => simp [sanityProfiles, raiseConfigurationError] at h

/-- C4 amended: after folding all config files,
`load_and_merge_profiles` validates the merged set, but the invariant it
enforces is only that every profile is a dictionary whose `version`,
when present, is numeric; `modules` is not validated at all (the check
is a `pass`/TODO in `_sanity_check`).  Hence whenever the merge
succeeds, every merged profile — selected to run or not — satisfies that
weaker invariant. -/
theorem merge_validates_version_of_all_profiles (fs : FS)
    (m : Dict Value) (s : Dict Path)
    (h : load_and_merge_profiles fs = Except.ok (m, s)) :
    ∀ n pv, dictFind? m n = Option.some pv → profileShapeOk pv = true := by
  unfold load_and_merge_profiles at h
  rcases except_bind_ok.1 h with ⟨acc, hacc, h⟩
  rcases except_bind_ok.1 h with ⟨u, hu, h⟩
  have haccms : acc = (m, s) := by
    simpa [pure, Except.pure] using h
  have hsan : sanityProfiles acc.1 = Except.ok () := by
    simpa [_sanity_check, dictFind?] using hu
  rw [haccms] at hsan
  intro n pv hf
  rcases sanityProfiles_ok_version hsan n pv (dictFind?_mem hf) with ⟨d, hd, hver⟩
  rw [hd]
  cases hfv : dictFind? d "version" with
  | none => simp [profileShapeOk, hfv]
  | some v => simp [profileShapeOk, hfv, hver v hfv]

/-- C4 counterexample: a merged set containing a profile whose `modules`
is the empty list — violating the invariant the claim says is enforced —
passes validation, and the whole command succeeds instead of failing. -/
theorem merge_accepts_empty_modules :
    load_and_merge_profiles fsEmptyModules =
      Except.ok ([("m", Value.dict [("modules", Value.list []), ("version", Value.num 16)])],
                 [("m", Path.mk "/work" ".rodoo.toml")]) := rfl

/-- C4 witness: the amended validation theorem applied to the concrete
merged set of `fsEmptyModules`. -/
theorem merge_validates_version_witness :
    profileShapeOk (Value.dict [("modules", Value.list []), ("version", Value.num 16)]) = true :=
  merge_validates_version_of_all_profiles fsEmptyModules
    [("m", Value.dict [("modules", Value.list []), ("version", Value.num 16)])]
    [("m", Path.mk "/work" ".rodoo.toml")] rfl "m"
    (Value.dict [("modules", Value.list []), ("version", Value.num 16)]) rfl

/-! ## Claim C9 -/

/-- C9: `ConfigFile.write` serializes only the `profile` table: whatever
other top-level keys the in-memory document holds, the file written at
`self.path` is a document whose single top-level key is `profile`, and
the profile mapping is written completely (every profile name is
present). -/
theorem write_serializes_only_profile_table (fs : FS) (cf : ConfigFileRepr)
    (doc t : Dict Value) (fs' : FS)
    (hcfg : cf.configs = Option.some doc)
    (hprof : (dictFind? doc "profile").getD (Value.dict []) = Value.dict t)
    (hw : configFileWrite fs cf = Except.ok fs') :
    ∃ st : Dict Value,
      fs'.file cf.path = FileContent.parsed [("profile", Value.dict st)]
      ∧ st.map Prod.fst = t.map Prod.fst
      ∧ ∀ k, k ≠ "profile" →
          dictFind? [("profile", Value.dict st)] k = Option.none := by
  unfold configFileWrite at hw
  rw [hcfg] at hw
  simp only [hprof, asDictE] at hw
  rcases except_bind_ok.1 hw with ⟨t0, ht0, hw⟩
  have ht0' : t = t0 := by
    simpa [pure, Except.pure] using ht0
  subst ht0'
  rcases except_bind_ok.1 hw with ⟨copied, hcopied, hw⟩
  rcases except_bind_ok.1 hw with ⟨st, hst, hw⟩
  have hfs' : fs' = fs.setFile cf.path (FileContent.parsed [("profile", Value.dict st)]) := by
    have h2 := hw
    simp only [pure, Except.pure, Except.ok.injEq] at h2
    exact h2.symm
  refine ⟨st, ?_, ?_, ?_⟩
  · rw [hfs']
    simp [FS.setFile]
  · exact (tableMapM_keys hst).trans (tableMapM_keys hcopied)
  · intro k hk
    simp [dictFind?, Ne.symm hk]

/-- C9 witness: writing a document that also holds the unrelated
top-level keys `title` and `owner` produces a file holding only the
complete `profile` table. -/
theorem write_serializes_only_profile_table_witness :
    ∃ st : Dict Value,
      fsAfterWriteExtras.file cfWithExtras.path
        = FileContent.parsed [("profile", Value.dict st)]
      ∧ st.map Prod.fst = [("p", Value.dict okProfile)].map Prod.fst
      ∧ ∀ k, k ≠ "profile" →
          dictFind? [("profile", Value.dict st)] k = Option.none :=
  write_serializes_only_profile_table fsEmptyTarget cfWithExtras docWithExtras
    [("p", Value.dict okProfile)] fsAfterWriteExtras rfl rfl rfl

/-! ## Claim C8 -/

theorem stringifyPaths_dict_preserves {d d' : Dict Value}
    (h : stringifyPaths (Value.dict d) = Except.ok (Value.dict d')) :
    ∀ k, k ≠ "paths" → dictFind? d' k = dictFind? d k := by
  unfold stringifyPaths at h
  simp only [pyContains, pure, Except.pure, Bind.bind, Except.bind] at h
  by_cases hc : dictContains d "paths" = true
  · rw [if_pos hc] at h
    simp only [pyGet, pure, Except.pure] at h
    by_cases htr : truthyV ((dictFind? d "paths").getD Value.none) = true
    · rw [if_pos htr] at h
      cases hg : (dictFind? d "paths").getD Value.none <;>
        simp only [hg, iterVals, pySetItem, pure, Except.pure, Except.error,
          Except.ok.injEq, Value.dict.injEq] at h
      all_goals first
        | (intro k hk
           rw [← h]
           exact dictFind?_set_other _ _ _ _ (fun he => hk he.symm))
        | exact Except.noConfusion h
    · rw [if_neg htr] at h
      simp only [Except.ok.injEq, Value.dict.injEq] at h
      intro k _
      rw [h]
  · rw [if_neg hc] at h
    simp only [Except.ok.injEq, Value.dict.injEq] at h
    intro k _
    rw [h]

/-- C8: writing a profile via `ConfigFile.update` and reloading the same
path through a new `ConfigFile` yields the profile field-for-field, up
to the serialization of path-valued fields to strings: the reloaded
record is exactly the written record with its truthy `paths` entries
stringified (`sprof`), and `sprof` agrees with the original on every key
other than `paths`. -/
theorem update_then_reload_roundtrip (fs : FS) (p : Path) (name : String)
    (prof sprof : Dict Value) (fs' : FS)
    (hupd : configFileUpdate fs p name (Value.dict prof) = Except.ok fs')
    (hser : stringifyPaths (Value.dict prof) = Except.ok (Value.dict sprof)) :
    ∃ table : Dict Value,
      (configFileInit fs' p).configs = Option.some [("profile", Value.dict table)]
      ∧ dictFind? table name = Option.some (Value.dict sprof)
      ∧ ∀ k, k ≠ "paths" → dictFind? sprof k = dictFind? prof k := by
  unfold configFileUpdate at hupd
  split at hupd
  · exact Except.noConfusion hupd
  next doc0 heq =>
  simp only [] at hupd
  have main : ∀ doc1 : Dict Value, ∀ pv0 : Value,
      dictFind? doc1 "profile" = Option.some pv0 →
      ((do
        let pv ← pyIndex (Value.dict doc1) "profile"
        let t ← asDictE pv
        configFileWrite fs (ConfigFileRepr.mk p (Option.some
          (dictSet doc1 "profile" (Value.dict (dictSet t name (Value.dict prof))))))) = Except.ok fs') →
      ∃ table : Dict Value,
        (configFileInit fs' p).configs = Option.some [("profile", Value.dict table)]
        ∧ dictFind? table name = Option.some (Value.dict sprof)
        ∧ ∀ k, k ≠ "paths" → dictFind? sprof k = dictFind? prof k := by
    intro doc1 pv0 hpv0 hu
    rw [show pyIndex (Value.dict doc1) "profile" = Except.ok pv0 by
         simp [pyIndex, hpv0, pure, Except.pure]] at hu
    rcases except_bind_ok.1 hu with ⟨pv, hpv, hu⟩
    have hpv2 : pv0 = pv := by simpa using hpv
    subst hpv2
    rcases except_bind_ok.1 hu with ⟨t1, ht1, hu⟩
    cases pv0 with
    | dict t0 =>
      have ht2 : t0 = t1 := by simpa [asDictE, pure, Except.pure] using ht1
      subst ht2
      unfold configFileWrite at hu
      simp only [dictFind?_set_self, Option.getD_some, asDictE] at hu
      rw [show (pure (dictSet t0 name (Value.dict prof)) : Except PyErr (Dict Value))
            = Except.ok (dictSet t0 name (Value.dict prof)) from rfl] at hu
      rcases except_bind_ok.1 hu with ⟨tt, htt, hu⟩
      have htt2 : dictSet t0 name (Value.dict prof) = tt := by simpa using htt
      subst htt2
      rcases except_bind_ok.1 hu with ⟨copied, hcopied, hu⟩
      rcases except_bind_ok.1 hu with ⟨st, hst, hu⟩
      have hfs2 : fs' = fs.setFile p (FileContent.parsed [("profile", Value.dict st)]) := by
        have h2 := hu
        simp only [pure, Except.pure, Except.ok.injEq] at h2
        exact h2.symm
      refine ⟨st, ?_, ?_, stringifyPaths_dict_preserves hser⟩
      · rw [hfs2]
        simp [configFileInit, FS.setFile]
      · have h1 : dictFind? (dictSet t0 name (Value.dict prof)) name
            = Option.some (Value.dict prof) := dictFind?_set_self _ _ _
        have h2 : dictFind? copied name = Option.some (Value.dict prof) :=
          tableMapM_find? hcopied h1 rfl
        exact tableMapM_find? hst h2 hser
    | none => exact absurd ht1 (by simp [asDictE])
    | str s => exact absurd ht1 (by simp [asDictE])
    | num q => exact absurd ht1 (by simp [asDictE])
    | bool b => exact absurd ht1 (by simp [asDictE])
    | list xs => exact absurd ht1 (by simp [asDictE])
    | path s => exact absurd ht1 (by simp [asDictE])
  by_cases hcp : dictContains doc0 "profile" = true
  · rw [if_pos hcp] at hupd
    rcases Option.isSome_iff_exists.1 hcp with ⟨pv0, hpv0⟩
    exact main doc0 pv0 hpv0 hupd
  · rw [if_neg hcp] at hupd
    exact main (dictSet doc0 "profile" (Value.dict [])) (Value.dict [])
      (dictFind?_set_self _ _ _) hupd

/-- C8 witness: round-tripping a profile with two path-valued entries
through `/work/rodoo.toml`. -/
theorem update_then_reload_roundtrip_witness :
    ∃ table : Dict Value,
      (configFileInit fsRoundTrip (Path.mk "/work" "rodoo.toml")).configs
        = Option.some [("profile", Value.dict table)]
      ∧ dictFind? table "p" = Option.some (Value.dict pathsProfileSerialized)
      ∧ ∀ k, k ≠ "paths" →
          dictFind? pathsProfileSerialized k = dictFind? pathsProfile k :=
  update_then_reload_roundtrip fsEmptyTarget (Path.mk "/work" "rodoo.toml") "p"
    pathsProfile pathsProfileSerialized fsRoundTrip rfl rfl

/-! ## Claim C1 -/

/-- C1 amended: for every input, `process_cli_args` either aborts or
returns a resolved configuration whose `modules` and `version` entries
are both present and truthy.  The final gate tests truthiness only, so a
truthy non-list `modules` value (for example a TOML string) passes —
nothing guarantees a non-empty modules *list*. -/
theorem process_cli_args_gate (fs : FS) (profile : Option String)
    (args : Dict Value) (ans : Answers) (cfg : Value) (fs' : FS)
    (h : process_cli_args fs profile args ans = Except.ok (cfg, fs')) :
    truthyO (getEntry cfg "modules") = true
      ∧ truthyO (getEntry cfg "version") = true := by
  unfold process_cli_args at h
  rcases except_bind_ok.1 h with ⟨cp, hcp, h⟩
  rcases except_bind_ok.1 h with ⟨r, hr, h⟩
  rcases except_bind_ok.1 h with ⟨m, hm, h⟩
  rcases except_bind_ok.1 h with ⟨v, hv, h⟩
  cases hcond : (!truthyV m || !truthyV v) with
  | true =>
    rw [hcond] at h
    simp at h
  | false =>
    rw [hcond] at h
    simp only [Bool.false_eq_true, if_false, pure, Except.pure, Except.ok.injEq] at h
    have hrc : r = (cfg, fs') := h
    rw [hrc] at hm hv
    simp only [Bool.or_eq_false_iff, Bool.not_eq_true'] at hcond
    cases cfg with
    | dict d =>
      constructor
      · have hm2 : m = (dictFind? d "modules").getD Value.none := by
          simpa [pyGet, pure, Except.pure] using hm.symm
        rw [show getEntry (Value.dict d) "modules" = dictFind? d "modules" from rfl,
          ← truthyO_getD, ← hm2]
        simpa using hcond.1
      · have hv2 : v = (dictFind? d "version").getD Value.none := by
          simpa [pyGet, pure, Except.pure] using hv.symm
        rw [show getEntry (Value.dict d) "version" = dictFind? d "version" from rfl,
          ← truthyO_getD, ← hv2]
        simpa using hcond.2
    | none => exact absurd hm (by simp [pyGet])
    | str s => exact absurd hm (by simp [pyGet])
    | num q => exact absurd hm (by simp [pyGet])
    | bool b => exact absurd hm (by simp [pyGet])
    | list xs => exact absurd hm (by simp [pyGet])
    | path s => exact absurd hm (by simp [pyGet])

/-- C1 counterexample: with a single config file whose profile has
`modules = "base"` (a TOML string) and `version = 16`, running with that
profile returns a resolved configuration whose `modules` entry is a
string, not a list — refuting the claim that every configuration handed
on contains a non-empty modules list. -/
theorem process_cli_args_returns_nonlist_modules :
    process_cli_args fsStrModules (Option.some "p") [] plainAnswers
      = Except.ok (Value.dict strModulesProfile, fsStrModules)
    ∧ getEntry (Value.dict strModulesProfile) "modules"
        = Option.some (Value.str "base")
    ∧ isListV (Value.str "base") = false :=
  ⟨rfl, rfl, rfl⟩

/-- C1 witness: the gate theorem applied to the concrete run of
`fsStrModules`. -/
theorem process_cli_args_gate_witness :
    truthyO (getEntry (Value.dict strModulesProfile) "modules") = true
      ∧ truthyO (getEntry (Value.dict strModulesProfile) "version") = true :=
  process_cli_args_gate fsStrModules (Option.some "p") [] plainAnswers
    (Value.dict strModulesProfile) fsStrModules rfl

/-! ## Claim C7 -/

/-- C7: `find_all_config_paths` returns exactly the existing candidate
files, highest precedence first — current-directory hidden file,
current-directory plain file, user-config-directory hidden file,
user-config-directory plain file — never a non-existing path, and the
same filename recurs only when it exists in both locations.  The
coherence hypothesis states that files below a non-existent user config
directory do not exist. -/
theorem find_all_config_paths_spec (fs : FS)
    (hcoh : fs.userConfigDirIsDir = false →
       fs.hasFile (Path.mk fs.userConfigDir ".rodoo.toml") = false ∧
       fs.hasFile (Path.mk fs.userConfigDir "rodoo.toml") = false) :
    find_all_config_paths fs =
      ([Path.mk fs.cwd ".rodoo.toml", Path.mk fs.cwd "rodoo.toml",
        Path.mk fs.userConfigDir ".rodoo.toml",
        Path.mk fs.userConfigDir "rodoo.toml"]).filter (fun p => fs.hasFile p)
    ∧ (∀ p ∈ find_all_config_paths fs, fs.hasFile p = true)
    ∧ (∀ f, 2 ≤ ((find_all_config_paths fs).filter (fun p => p.name == f)).length →
         fs.hasFile (Path.mk fs.cwd f) = true
           ∧ fs.hasFile (Path.mk fs.userConfigDir f) = true) := by
  have h1 : find_all_config_paths fs =
      ([Path.mk fs.cwd ".rodoo.toml", Path.mk fs.cwd "rodoo.toml",
        Path.mk fs.userConfigDir ".rodoo.toml",
        Path.mk fs.userConfigDir "rodoo.toml"]).filter (fun p => fs.hasFile p) := by
    unfold find_all_config_paths FILENAMES
    cases hdir : fs.userConfigDirIsDir with
    | true =>
      cases ha1 : fs.hasFile (Path.mk fs.cwd ".rodoo.toml") <;>
        cases ha2 : fs.hasFile (Path.mk fs.cwd "rodoo.toml") <;>
        cases ha3 : fs.hasFile (Path.mk fs.userConfigDir ".rodoo.toml") <;>
        cases ha4 : fs.hasFile (Path.mk fs.userConfigDir "rodoo.toml") <;>
        simp [List.filter, ha1, ha2, ha3, ha4]
    | false =>
      rcases hcoh hdir with ⟨ha, hb⟩
      cases ha1 : fs.hasFile (Path.mk fs.cwd ".rodoo.toml") <;>
        cases ha2 : fs.hasFile (Path.mk fs.cwd "rodoo.toml") <;>
        simp [List.filter, ha1, ha2, ha, hb]
  refine ⟨h1, ?_, ?_⟩
  · intro p hp
    rw [h1] at hp
    exact (List.mem_filter.1 hp).2
  · intro f hf
    rw [h1] at hf
    by_cases hf1 : (".rodoo.toml" : String) = f
    · subst hf1
      cases ha1 : fs.hasFile (Path.mk fs.cwd ".rodoo.toml") <;>
        cases ha2 : fs.hasFile (Path.mk fs.cwd "rodoo.toml") <;>
        cases ha3 : fs.hasFile (Path.mk fs.userConfigDir ".rodoo.toml") <;>
        cases ha4 : fs.hasFile (Path.mk fs.userConfigDir "rodoo.toml") <;>
        simp_all [List.filter]
    · by_cases hf2 : ("rodoo.toml" : String) = f
      · subst hf2
        cases ha1 : fs.hasFile (Path.mk fs.cwd ".rodoo.toml") <;>
          cases ha2 : fs.hasFile (Path.mk fs.cwd "rodoo.toml") <;>
          cases ha3 : fs.hasFile (Path.mk fs.userConfigDir ".rodoo.toml") <;>
          cases ha4 : fs.hasFile (Path.mk fs.userConfigDir "rodoo.toml") <;>
          simp_all [List.filter]
      · exfalso
        have hb1 : ((".rodoo.toml" : String) == f) = false := beq_eq_false_iff_ne.2 hf1
        have hb2 : (("rodoo.toml" : String) == f) = false := beq_eq_false_iff_ne.2 hf2
        cases ha1 : fs.hasFile (Path.mk fs.cwd ".rodoo.toml") <;>
          cases ha2 : fs.hasFile (Path.mk fs.cwd "rodoo.toml") <;>
          cases ha3 : fs.hasFile (Path.mk fs.userConfigDir ".rodoo.toml") <;>
          cases ha4 : fs.hasFile (Path.mk fs.userConfigDir "rodoo.toml") <;>
          simp_all [List.filter, beq_iff_eq]

/-- C7 witness: on `fsFindPaths` (hidden cwd file and plain user file
exist) the returned list is exactly those two paths in precedence
order. -/
theorem find_all_config_paths_spec_witness :
    find_all_config_paths fsFindPaths =
      ([Path.mk fsFindPaths.cwd ".rodoo.toml", Path.mk fsFindPaths.cwd "rodoo.toml",
        Path.mk fsFindPaths.userConfigDir ".rodoo.toml",
        Path.mk fsFindPaths.userConfigDir "rodoo.toml"]).filter
        (fun p => fsFindPaths.hasFile p)
    ∧ find_all_config_paths fsFindPaths =
        [Path.mk "/work" ".rodoo.toml", Path.mk "/uc" "rodoo.toml"] :=
  ⟨(find_all_config_paths_spec fsFindPaths (fun h => Bool.noConfusion h)).1, rfl⟩

/-! ## Claim C6 -/

/-- C6 amended: in the ParamsPresent path, once an update target `t` is
identified among the local candidates — with `srcPath` its originating
file, `doc` that file's document and `stored` the stored profile — an
accepted confirmation overlays the stored profile field-by-field with
the CLI overlay (`dictUpdate stored cliParams`: CLI keys overwrite, the
rest keep their stored values), writes the result back to `srcPath`
through a freshly loaded `ConfigFile` (`configFileUpdate`, producing
`fs'`), and returns it as the resolved configuration; a declined
confirmation leaves the filesystem unchanged and proceeds ad-hoc with
exactly the CLI overlay provided the overlay passes the required-field
validation (`modules` and `version` present), otherwise it aborts. -/
theorem params_present_update_semantics
    (fs : FS) (profile : Option String) (cliParams : Dict Value) (ans : ParamsAnswers)
    (allProfiles : Dict Value) (sources : Dict Path) (pcw : Dict Value)
    (t : String) (srcPath : Path) (doc profs stored : Dict Value) (fs' : FS)
    (hok : load_and_merge_profiles fs = Except.ok (allProfiles, sources))
    (hpcw : buildProfilesInCwd allProfiles sources fs.cwd = Except.ok pcw)
    (ht : determineUpdateTarget profile ans.choice pcw = Option.some t)
    (htne : t ≠ "")
    (hmem : dictContains pcw t = true)
    (hsrc : dictFind? sources t = Option.some srcPath)
    (hfile : fs.file srcPath = FileContent.parsed doc)
    (hprof : dictFind? doc "profile" = Option.some (Value.dict profs))
    (hstored : dictFind? profs t = Option.some (Value.dict stored))
    (hwrite : configFileUpdate fs srcPath t (Value.dict (dictUpdate stored cliParams))
        = Except.ok fs') :
    (ans.updateConfirm = true →
       _handle_cli_params_present fs profile cliParams ans =
         Except.ok (Value.dict (dictUpdate stored cliParams), fs'))
    ∧ (ans.updateConfirm = false →
       _handle_cli_params_present fs profile cliParams ans =
         (if dictContains cliParams "modules" && dictContains cliParams "version"
          then Except.ok (Value.dict cliParams, fs)
          else Except.error (PyErr.typerExit 1))) := by
  have hnemp : pcw.isEmpty = false := by
    rcases Option.isSome_iff_exists.1 hmem with ⟨v, hv⟩
    have hm := dictFind?_mem hv
    cases pcw with
    | nil => simp at hm
    | cons a l => rfl
  have hinit : (configFileInit fs srcPath).configs = Option.some doc := by
    simp [configFileInit, hfile]
  constructor
  · intro hconf
    unfold _handle_cli_params_present
    rw [hok]
    simp only [Bind.bind, Except.bind]
    rw [hpcw]
    simp only [hnemp, Bool.not_false, if_true]
    rw [ht]
    simp only []
    rw [if_pos ⟨htne, hmem⟩]
    rw [hconf]
    simp only [if_true]
    rw [hsrc]
    simp only [pure, Except.pure]
    rw [hinit]
    simp only [hprof, Option.getD_some]
    rw [show pyIndex (Value.dict profs) t = Except.ok (Value.dict stored) by
          simp [pyIndex, hstored, pure, Except.pure]]
    simp only []
    rw [hwrite]
  · intro hconf
    unfold _handle_cli_params_present
    rw [hok]
    simp only [Bind.bind, Except.bind]
    rw [hpcw]
    simp only [hnemp, Bool.not_false, if_true]
    rw [ht]
    simp only []
    rw [if_pos ⟨htne, hmem⟩]
    rw [hconf]
    simp only [Bool.false_eq_true, if_false]
    cases hcm : dictContains cliParams "modules" <;>
      cases hcv : dictContains cliParams "version" <;>
      simp [_validate_required_cli_params, hcm, hcv, Bind.bind, Except.bind,
        pure, Except.pure]

/-- C6 counterexample: the claim says a declined overwrite proceeds
ad-hoc with the CLI overlay; with overlay `{db: "x"}` (no modules or
version) and a declined confirmation the code instead aborts with
`typer.Exit(1)`. -/
theorem declined_update_with_partial_overlay_aborts :
    _handle_cli_params_present fsLocalProfile (Option.some "p") [("db", Value.str "x")]
      (ParamsAnswers.mk "" false) = Except.error (PyErr.typerExit 1) := rfl

/-- C6 witness: the accepted-update conclusion of the amended theorem at
the concrete scenario, showing the field-level overlay and the
write-back to the originating file. -/
theorem params_present_update_semantics_witness :
    _handle_cli_params_present fsLocalProfile (Option.some "p") [("db", Value.str "x")]
      (ParamsAnswers.mk "" true)
      = Except.ok (Value.dict (dictUpdate okProfile [("db", Value.str "x")]),
                   fsLocalProfileAfter) :=
  (params_present_update_semantics fsLocalProfile (Option.some "p")
    [("db", Value.str "x")] (ParamsAnswers.mk "" true)
    [("p", Value.dict okProfile)] [("p", Path.mk "/work" ".rodoo.toml")]
    [("p", Value.dict okProfile)] "p" (Path.mk "/work" ".rodoo.toml")
    [("profile", Value.dict [("p", Value.dict okProfile)])]
    [("p", Value.dict okProfile)] okProfile fsLocalProfileAfter
    rfl rfl rfl (by decide) rfl rfl rfl rfl rfl rfl).1 rfl

/-! ## Claim C5 -/

theorem mergeFiles_append (fs : FS) (l1 l2 : List Path)
    (acc : Dict Value × Dict Path) :
    mergeFiles fs (l1 ++ l2) acc = mergeFiles fs l1 acc >>= mergeFiles fs l2 := by
  induction l1 generalizing acc with
  | nil => simp [mergeFiles, Bind.bind, Except.bind, pure, Except.pure]
  | cons p rest ih =>
    simp only [List.cons_append, mergeFiles]
    cases hs : mergeStep fs p acc with
    | error e => simp [Bind.bind, Except.bind]
    | ok a => simp [Bind.bind, Except.bind, ih]

theorem mergeStep_skip {fs : FS} {p : Path} {acc acc' : Dict Value × Dict Path}
    {n : String} (hn : n ∉ providedNames fs p)
    (h : mergeStep fs p acc = Except.ok acc') :
    dictFind? acc'.1 n = dictFind? acc.1 n ∧ dictFind? acc'.2 n = dictFind? acc.2 n := by
  unfold mergeStep at h
  unfold providedNames at hn
  cases hc : (configFileInit fs p).configs with
  | none =>
    rw [hc] at h
    have : acc = acc' := by simpa [pure, Except.pure] using h
    rw [this]
    exact ⟨rfl, rfl⟩
  | some doc =>
    rw [hc] at h hn
    simp only [] at h hn
    cases htr : truthyV ((dictFind? doc "profile").getD (Value.dict [])) with
    | false =>
      rw [htr] at h
      simp only [Bool.false_eq_true, if_false] at h
      have : acc = acc' := by simpa [pure, Except.pure] using h
      rw [this]
      exact ⟨rfl, rfl⟩
    | true =>
      rw [htr] at h
      simp only [if_true] at h
      cases hpv : (dictFind? doc "profile").getD (Value.dict []) with
      | dict t =>
        rw [hpv] at h hn
        simp only [asDictE, pure, Except.pure, Bind.bind, Except.bind] at h
        cases hrt : resolveTable fs p t with
        | error e =>
          rw [hrt] at h
          cases h
        | ok rt =>
          rw [hrt] at h
          have hacc' : (dictUpdate acc.1 rt,
              rt.foldl (fun s kv => dictSet s kv.1 p) acc.2) = acc' := by
            simpa [pure, Except.pure] using h
          rw [← hacc']
          have hkeys : rt.map Prod.fst = t.map Prod.fst := tableMapM_keys hrt
          have hn' : n ∉ rt.map Prod.fst := by rw [hkeys]; exact hn
          exact ⟨dictFind?_update_not_mem _ hn', srcFold_find?_not_mem _ _ _ hn'⟩
      | none =>
        rw [hpv] at h
        simp [asDictE, Bind.bind, Except.bind] at h
      | str s =>
        rw [hpv] at h
        simp [asDictE, Bind.bind, Except.bind] at h
      | num q =>
        rw [hpv] at h
        simp [asDictE, Bind.bind, Except.bind] at h
      | bool b =>
        rw [hpv] at h
        simp [asDictE, Bind.bind, Except.bind] at h
      | list xs =>
        rw [hpv] at h
        simp [asDictE, Bind.bind, Except.bind] at h
      | path s =>
        rw [hpv] at h
        simp [asDictE, Bind.bind, Except.bind] at h

theorem mergeFiles_preserve {fs : FS} {l : List Path}
    {acc acc' : Dict Value × Dict Path} {n : String}
    (hl : ∀ p ∈ l, n ∉ providedNames fs p)
    (h : mergeFiles fs l acc = Except.ok acc') :
    dictFind? acc'.1 n = dictFind? acc.1 n ∧ dictFind? acc'.2 n = dictFind? acc.2 n := by
  induction l generalizing acc with
  | nil =>
    have : acc = acc' := by simpa [mergeFiles, pure, Except.pure] using h
    rw [this]
    exact ⟨rfl, rfl⟩
  | cons p rest ih =>
    simp only [mergeFiles] at h
    rcases except_bind_ok.1 h with ⟨a1, ha1, h⟩
    have h1 := mergeStep_skip (hl p (List.mem_cons_self _ _)) ha1
    have h2 := ih (fun q hq => hl q (List.mem_cons_of_mem _ hq)) h
    exact ⟨h2.1.trans h1.1, h2.2.trans h1.2⟩

theorem mergeStep_hit {fs : FS} {p : Path} {acc acc' : Dict Value × Dict Path}
    {n : String} {doc t : Dict Value} {rec : Value}
    (hfile : fs.file p = FileContent.parsed doc)
    (hprof : dictFind? doc "profile" = Option.some (Value.dict t))
    (hnd : (t.map Prod.fst).Nodup)
    (htn : dictFind? t n = Option.some rec)
    (hres : resolveProfileValue fs p.dir rec = Except.ok rec)
    (h : mergeStep fs p acc = Except.ok acc') :
    dictFind? acc'.1 n = Option.some rec ∧ dictFind? acc'.2 n = Option.some p := by
  unfold mergeStep at h
  rw [show (configFileInit fs p).configs = Option.some doc by
        simp [configFileInit, hfile]] at h
  simp only [hprof, Option.getD_some] at h
  have htne : t ≠ [] := by
    intro he
    rw [he] at htn
    simp [dictFind?] at htn
  rw [show truthyV (Value.dict t) = true by
        simp [truthyV, htne]] at h
  simp only [if_true, asDictE, pure, Except.pure, Bind.bind, Except.bind] at h
  cases hrt : resolveTable fs p t with
  | error e =>
    rw [hrt] at h
    cases h
  | ok rt =>
    rw [hrt] at h
    have hacc' : (dictUpdate acc.1 rt,
        rt.foldl (fun s kv => dictSet s kv.1 p) acc.2) = acc' := by
      simpa [pure, Except.pure] using h
    rw [← hacc']
    have hkeys : rt.map Prod.fst = t.map Prod.fst := tableMapM_keys hrt
    have hfind : dictFind? rt n = Option.some rec := tableMapM_find? hrt htn hres
    have hnd' : (rt.map Prod.fst).Nodup := by rw [hkeys]; exact hnd
    refine ⟨dictFind?_update_self _ hnd' hfind, ?_⟩
    exact srcFold_find?_mem _ _ _ hnd' (dictFind?_mem_keys hfind)

/-- C5: whenever the same profile name `n` appears in two of the found
config files — `pHi` of higher precedence (no file of even higher
precedence provides `n`) and `pLo` of lower precedence — the merged set
maps `n` to the whole record stored in `pHi` (here a record that path
resolution leaves unchanged, i.e. whole-record replacement with no
field-level merging), and the source map points `n` at `pHi`. -/
theorem higher_precedence_profile_wins (fs : FS)
    (pre post : List Path) (pHi pLo : Path) (n : String)
    (docHi tHi : Dict Value) (rec : Value) (m : Dict Value) (s : Dict Path)
    (hok : load_and_merge_profiles fs = Except.ok (m, s))
    (hsplit : find_all_config_paths fs = pre ++ pHi :: post)
    (hpre : ∀ q ∈ pre, n ∉ providedNames fs q)
    (hfile : fs.file pHi = FileContent.parsed docHi)
    (hprof : dictFind? docHi "profile" = Option.some (Value.dict tHi))
    (hnd : (tHi.map Prod.fst).Nodup)
    (htn : dictFind? tHi n = Option.some rec)
    (hres : resolveProfileValue fs pHi.dir rec = Except.ok rec)
    (hlo : pLo ∈ post) (hlon : n ∈ providedNames fs pLo) :
    dictFind? m n = Option.some rec ∧ dictFind? s n = Option.some pHi := by
  unfold load_and_merge_profiles at hok
  rcases except_bind_ok.1 hok with ⟨acc, hacc, hok⟩
  rcases except_bind_ok.1 hok with ⟨u, hu, hok⟩
  have haccms : acc = (m, s) := by simpa [pure, Except.pure] using hok
  rw [hsplit] at hacc
  rw [show (pre ++ pHi :: post).reverse = post.reverse ++ (pHi :: pre.reverse) by
        simp] at hacc
  rw [mergeFiles_append] at hacc
  rcases except_bind_ok.1 hacc with ⟨acc0, hacc0, hacc⟩
  simp only [mergeFiles] at hacc
  rcases except_bind_ok.1 hacc with ⟨acc1, hacc1, hacc⟩
  have hit := mergeStep_hit hfile hprof hnd htn hres hacc1
  have hkeep := mergeFiles_preserve
    (fun q hq => hpre q (List.mem_reverse.1 hq)) hacc
  rw [haccms] at hkeep
  exact ⟨hkeep.1.trans hit.1, hkeep.2.trans hit.2⟩

/-- C5 witness: with `dup` defined both in the current-directory hidden
file and in the user-directory file, the merged set holds the
current-directory (higher-precedence) record and the source map points
at the current-directory file. -/
theorem higher_precedence_profile_wins_witness :
    dictFind? [("dup", dupHiProfile)] "dup" = Option.some dupHiProfile
    ∧ dictFind? [("dup", Path.mk "/work" ".rodoo.toml")] "dup"
        = Option.some (Path.mk "/work" ".rodoo.toml") :=
  higher_precedence_profile_wins fsDup [] [Path.mk "/uc" "rodoo.toml"]
    (Path.mk "/work" ".rodoo.toml") (Path.mk "/uc" "rodoo.toml") "dup"
    [("profile", Value.dict [("dup", dupHiProfile)])] [("dup", dupHiProfile)]
    dupHiProfile [("dup", dupHiProfile)] [("dup", Path.mk "/work" ".rodoo.toml")]
    rfl rfl (fun q hq => absurd hq (List.not_mem_nil q)) rfl rfl
    (by simp) rfl rfl (List.mem_singleton.2 rfl) (by rw [show providedNames fsDup (Path.mk "/uc" "rodoo.toml") = ["dup"] from rfl]; exact List.mem_singleton.2 rfl)

end Rodoo
